import Mathlib

/-!
Verification of the due-date reminder and notification-deduplication engine
of the ChronoTask Pro todo application (src/App.jsx, `useEnhancedNotifications`
and its inner `checkNotifications`), against its natural-language specification.

The embedding models:
* `NOTIFICATION_LEVELS` — the static threshold configuration (App.jsx lines 13-19);
* `checkNotifications` — one polling tick over the active tasks (lines 296-341),
  with the dedup ledger (`notifiedTasksRef`, a JS `Set` of strings) modelled as a
  duplicate-free `List String` threaded through the computation, and each
  dispatched notification represented by its dedup tag (the `tag` field passed
  to `showNotification`, line 319);
* the permission guard of the surrounding effect (line 294).

Time values are UTC milliseconds as integers.  JS `Math.floor(x / 60000)` on an
integer millisecond difference is floor division, which is Lean's `Int` `/`
(Euclidean division) since the divisor is positive.
-/

namespace TodoApp

/-- One entry of `NOTIFICATION_LEVELS` (App.jsx lines 13-19).  In the source a
level carries a floating-point `hours` value; `hoursStr` is the JS string form
of that number (used when the level is interpolated into the notification key)
and `thresholdMinutes` is `hours * 60` as computed in IEEE-754 doubles, which
is exact for all five configured levels (5*60 = 300, 2*60 = 120, 1*60 = 60,
0.5*60 = 30, and (10/60)*60 rounds to exactly 10.0). -/
structure Level where
  hoursStr : String
  thresholdMinutes : Int
  label : String
deriving DecidableEq

/-- The static threshold configuration, App.jsx lines 13-19.  The string form
of the JS double `10/60` is "0.16666666666666666". -/
def NOTIFICATION_LEVELS : List Level :=
  [ ⟨"5", 5 * 60, "5 hours"⟩,
    ⟨"2", 2 * 60, "2 hours"⟩,
    ⟨"1", 1 * 60, "1 hour"⟩,
    ⟨"0.5", 30, "30 minutes"⟩,
    ⟨"0.16666666666666666", 10, "10 minutes"⟩ ]

/-- A task as seen by the notification core: its stable id, its title and its
optional UTC due timestamp (`dueUtc`) in milliseconds; `none` models an absent
due date (the code guards with `if (task.dueUtc)`).  Completed tasks are
filtered out by the caller before reaching the core. -/
structure Task where
  id : String
  title : String
  dueUtc : Option Int
deriving DecidableEq

/-- `notificationKey` (App.jsx line 307): the template literal
`task-${task.id}-${level.hours}`, also used as the notification's dedup tag. -/
def notificationKey (t : Task) (level : Level) : String :=
  "task-" ++ t.id ++ "-" ++ level.hoursStr

/-- `minutesLeft` (App.jsx line 303): `Math.floor((dueDate - now) / 60000)`.
Lean's `Int` division is Euclidean, which coincides with floor division for
the positive divisor 60000. -/
def minutesLeftAt (due now : Int) : Int :=
  (due - now) / (1000 * 60)

/-- The in-window test of App.jsx lines 309-312:
`minutesLeft <= thresholdMinutes && minutesLeft > thresholdMinutes - 1`. -/
def inWindow (level : Level) (minutesLeft : Int) : Bool :=
  decide (minutesLeft ≤ level.thresholdMinutes) &&
    decide (minutesLeft > level.thresholdMinutes - 1)

/-- The body of the `NOTIFICATION_LEVELS.forEach` loop (App.jsx lines 305-330)
for one level: if the level is in window and its key is not yet recorded,
dispatch the notification (append its dedup tag to the dispatch list) and add
the key to the ledger.  The accumulator is (dispatches so far, live ledger). -/
def fireStep (t : Task) (ml : Int) (acc : List String × List String)
    (level : Level) : List String × List String :=
  let k := notificationKey t level
  if inWindow level ml then
    if k ∈ acc.2 then acc
    else (acc.1 ++ [k], acc.2 ++ [k])
  else acc

/-- The cleanup loop of App.jsx lines 334-337: delete this task's key for
every configured level from the ledger. -/
def pruneTask (t : Task) (levels : List Level) (ledger : List String) :
    List String :=
  levels.foldl (fun led level => led.filter (fun k => k ≠ notificationKey t level)) ledger

/-- The per-task body of `checkNotifications` (App.jsx lines 299-339): skip
tasks without a due date; otherwise run the firing loop over all levels (with
the ledger mutated in place), then, if `minutesLeft > 5 * 60`, delete all of
this task's keys from the ledger.  Returns (dispatched tags, new ledger). -/
def checkTask (levels : List Level) (now : Int) (ledger : List String)
    (t : Task) : List String × List String :=
  match t.dueUtc with
  | none => ([], ledger)
  | some due =>
    let ml := minutesLeftAt due now
    let fired := levels.foldl (fireStep t ml) ([], ledger)
    if ml > 5 * 60 then (fired.1, pruneTask t levels fired.2) else fired

/-- One tick of `checkNotifications` (App.jsx lines 296-341): the per-task body
run over every active task in order, sharing the one ledger. -/
def checkNotifications (levels : List Level) (tasks : List Task) (now : Int)
    (ledger : List String) : List String × List String :=
  tasks.foldl (fun acc t =>
    let r := checkTask levels now acc.2 t
    (acc.1 ++ r.1, r.2)) ([], ledger)

/-- The permission guard of the surrounding effect (App.jsx lines 293-294):
when `permission !== "granted"` the effect returns before installing the tick,
so no notification is dispatched and the ledger is untouched. -/
def enhancedTick (permission : String) (tasks : List Task) (now : Int)
    (ledger : List String) : List String × List String :=
  if permission = "granted" then
    checkNotifications NOTIFICATION_LEVELS tasks now ledger
  else ([], ledger)

/-- Several ticks in a row at the given `now` values (the polling loop of
App.jsx line 343 with simulated times), accumulating all dispatched tags. -/
def runTicks (tasks : List Task) (nows : List Int) (ledger : List String) :
    List String × List String :=
  nows.foldl (fun acc n =>
    let r := checkNotifications NOTIFICATION_LEVELS tasks n acc.2
    (acc.1 ++ r.1, r.2)) ([], ledger)

/-- The per-task tick algorithm exactly as the specification words it
(spec section 4.2, side effect ordering): compute `minutesRemaining`; if it
exceeds the far cutoff, prune all of this task's ledger entries and skip the
firing checks for this tick; only otherwise evaluate the thresholds against
the ledger and fire.  Used to compare the source's operation order (fire loop
first, cleanup after) with the specified order. -/
def checkTaskSpec (levels : List Level) (now : Int) (ledger : List String)
    (t : Task) : List String × List String :=
  match t.dueUtc with
  | none => ([], ledger)
  | some due =>
    let ml := minutesLeftAt due now
    if ml > 5 * 60 then ([], pruneTask t levels ledger)
    else levels.foldl (fireStep t ml) ([], ledger)

/-!  Helper lemmas about the folds of the tick algorithm. -/

/-- Generic accumulator decomposition for the left folds used by the firing
loop, the per-tick task loop and the multi-tick loop: each step appends some
dispatches (computed from the current state) and updates the state. -/
theorem foldl_acc_decomp {α γ : Type} (g : γ → α → List String × γ)
    (step : List String × γ → α → List String × γ)
    (hstep : ∀ acc x, step acc x = (acc.1 ++ (g acc.2 x).1, (g acc.2 x).2))
    (xs : List α) (d : List String) (s : γ) :
    xs.foldl step (d, s) =
      (d ++ (xs.foldl step ([], s)).1, (xs.foldl step ([], s)).2) := by
  induction xs generalizing d s with
  | nil => simp
  | cons x xs ih =>
    simp only [List.foldl_cons, hstep, List.nil_append]
    rw [ih, ih (g s x).1]
    simp [List.append_assoc]

/-- One step of the firing loop only consults the ledger component of the
accumulator and appends its dispatch to the dispatch component. -/
theorem fireStep_acc (t : Task) (ml : Int) (acc : List String × List String)
    (level : Level) :
    fireStep t ml acc level =
      (acc.1 ++ (fireStep t ml ([], acc.2) level).1,
       (fireStep t ml ([], acc.2) level).2) := by
  simp only [fireStep]
  split
  · split <;> simp
  · simp

/-- Accumulator decomposition for the firing loop. -/
theorem fireFold_acc (t : Task) (ml : Int) (levels : List Level)
    (d L : List String) :
    levels.foldl (fireStep t ml) (d, L) =
      (d ++ (levels.foldl (fireStep t ml) ([], L)).1,
       (levels.foldl (fireStep t ml) ([], L)).2) :=
  foldl_acc_decomp (fun s level => fireStep t ml ([], s) level) _
    (fun acc x => fireStep_acc t ml acc x) levels d L

/-- If every in-window level already has its key recorded in the ledger, the
firing loop dispatches nothing and leaves the ledger unchanged. -/
theorem fireFold_recorded (t : Task) (ml : Int) (levels : List Level)
    (d L : List String)
    (h : ∀ l ∈ levels, inWindow l ml = true → notificationKey t l ∈ L) :
    levels.foldl (fireStep t ml) (d, L) = (d, L) := by
  induction levels with
  | nil => rfl
  | cons l ls ih =>
    have hstep : fireStep t ml (d, L) l = (d, L) := by
      cases hw : inWindow l ml with
      | false => simp [fireStep, hw]
      | true =>
        have hk : notificationKey t l ∈ L := h l (List.mem_cons_self l ls) hw
        simp [fireStep, hw, hk]
    rw [List.foldl_cons, hstep]
    exact ih (fun l' hl' hw' => h l' (List.mem_cons_of_mem l hl') hw')

/-- Unfolding one task of a tick. -/
theorem checkNotifications_cons (levels : List Level) (t : Task)
    (ts : List Task) (now : Int) (led : List String) :
    checkNotifications levels (t :: ts) now led =
      ((checkTask levels now led t).1 ++
        (checkNotifications levels ts now (checkTask levels now led t).2).1,
       (checkNotifications levels ts now (checkTask levels now led t).2).2) := by
  simp only [checkNotifications, List.foldl_cons, List.nil_append]
  exact foldl_acc_decomp (fun s x => checkTask levels now s x) _
    (fun acc x => rfl) ts (checkTask levels now led t).1
    (checkTask levels now led t).2

/-- A tick over a single task is the per-task body. -/
theorem checkNotifications_one (levels : List Level) (t : Task) (now : Int)
    (led : List String) :
    checkNotifications levels [t] now led = checkTask levels now led t := by
  rw [checkNotifications_cons]
  simp [checkNotifications]

/-- Unfolding one tick of a multi-tick run. -/
theorem runTicks_cons (tasks : List Task) (n : Int) (ns : List Int)
    (led : List String) :
    runTicks tasks (n :: ns) led =
      ((checkNotifications NOTIFICATION_LEVELS tasks n led).1 ++
        (runTicks tasks ns
          (checkNotifications NOTIFICATION_LEVELS tasks n led).2).1,
       (runTicks tasks ns
          (checkNotifications NOTIFICATION_LEVELS tasks n led).2).2) := by
  simp only [runTicks, List.foldl_cons, List.nil_append]
  exact foldl_acc_decomp
    (fun s x => checkNotifications NOTIFICATION_LEVELS tasks x s) _
    (fun acc x => rfl) ns _ _

/-- Every tag dispatched by the firing loop is the notification key of one of
the processed levels (or was already in the dispatch accumulator). -/
theorem fireFold_dispatch_mem (t : Task) (ml : Int) (levels : List Level)
    (d L : List String) :
    ∀ x ∈ (levels.foldl (fireStep t ml) (d, L)).1,
      x ∈ d ∨ ∃ l ∈ levels, x = notificationKey t l := by
  induction levels generalizing d L with
  | nil => intro x hx; exact Or.inl hx
  | cons l ls ih =>
    intro x hx
    rw [List.foldl_cons] at hx
    rcases hfs : fireStep t ml (d, L) l with ⟨d', L'⟩
    rw [hfs] at hx
    have hd' : d' = d ∨ d' = d ++ [notificationKey t l] := by
      simp only [fireStep] at hfs
      split at hfs
      · split at hfs
        · exact Or.inl (congrArg Prod.fst hfs).symm
        · exact Or.inr (congrArg Prod.fst hfs).symm
      · exact Or.inl (congrArg Prod.fst hfs).symm
    rcases ih d' L' x hx with hmem | ⟨l', hl', hkey⟩
    · rcases hd' with rfl | rfl
      · exact Or.inl hmem
      · rcases List.mem_append.mp hmem with h | h
        · exact Or.inl h
        · exact Or.inr ⟨l, List.mem_cons_self l ls, List.mem_singleton.mp h⟩
    · exact Or.inr ⟨l', List.mem_cons_of_mem l hl', hkey⟩

/-- Membership in the pruned ledger: a key survives the cleanup loop exactly
when it was present and differs from all of the task's level keys. -/
theorem pruneTask_mem (t : Task) (levels : List Level) (L : List String)
    (k : String) :
    k ∈ pruneTask t levels L ↔
      k ∈ L ∧ ∀ l ∈ levels, k ≠ notificationKey t l := by
  induction levels generalizing L with
  | nil => simp [pruneTask]
  | cons l ls ih =>
    simp only [pruneTask, List.foldl_cons] at ih ⊢
    rw [ih]
    simp only [List.mem_filter, decide_eq_true_eq, List.mem_cons]
    constructor
    · rintro ⟨⟨hk, hne⟩, hall⟩
      refine ⟨hk, ?_⟩
      rintro l' (rfl | hl')
      · exact hne
      · exact hall l' hl'
    · rintro ⟨hk, hall⟩
      exact ⟨⟨hk, hall l (Or.inl rfl)⟩,
        fun l' hl' => hall l' (Or.inr hl')⟩

/-- Splitting a character list at a separator whose right part is free of the
separator character is unambiguous. -/
theorem split_at_last_sep (c : Char) (a₁ b₁ : List Char) :
    ∀ (a₂ b₂ : List Char), c ∉ b₁ → c ∉ b₂ →
      a₁ ++ c :: b₁ = a₂ ++ c :: b₂ → a₁ = a₂ ∧ b₁ = b₂ := by
  induction a₁ with
  | nil =>
    intro a₂ b₂ h₁ h₂ h
    cases a₂ with
    | nil =>
      simp only [List.nil_append, List.cons.injEq] at h
      exact ⟨rfl, h.2⟩
    | cons x a₂' =>
      simp only [List.nil_append, List.cons_append, List.cons.injEq] at h
      exact absurd (h.2 ▸ List.mem_append_right a₂' (List.mem_cons_self c b₂))
        h₁
  | cons x a₁' ih =>
    intro a₂ b₂ h₁ h₂ h
    cases a₂ with
    | nil =>
      simp only [List.cons_append, List.nil_append, List.cons.injEq] at h
      exact absurd
        (h.2.symm ▸ List.mem_append_right a₁' (List.mem_cons_self c b₁)) h₂
    | cons y a₂' =>
      simp only [List.cons_append, List.cons.injEq] at h
      obtain ⟨ha, hb⟩ := ih a₂' b₂ h₁ h₂ h.2
      exact ⟨by rw [h.1, ha], hb⟩

/-- The notification key determines the task id and the level's hours string,
provided neither hours string contains a hyphen (true of every configured
level; task ids may freely contain hyphens). -/
theorem notificationKey_inj (t t' : Task) (l l' : Level)
    (h₁ : ( '-' ) ∉ l.hoursStr.data) (h₂ : ( '-' ) ∉ l'.hoursStr.data)
    (h : notificationKey t l = notificationKey t' l') :
    t.id = t'.id ∧ l.hoursStr = l'.hoursStr := by
  have hdata : ("task-" : String).data ++
      (t.id.data ++ ( '-' ) :: l.hoursStr.data) =
      ("task-" : String).data ++
      (t'.id.data ++ ( '-' ) :: l'.hoursStr.data) := by
    have h0 := congrArg String.data h
    simp only [notificationKey] at h0
    have hap : ∀ a b : String, (a ++ b).data = a.data ++ b.data :=
      fun a b => rfl
    have hsep : ("-" : String).data = [( '-' )] := rfl
    simpa [hap, hsep, List.append_assoc] using h0
  have hmid := List.append_cancel_left hdata
  obtain ⟨hid, hhs⟩ :=
    split_at_last_sep ( '-' ) t.id.data l.hoursStr.data t'.id.data
      l'.hoursStr.data h₁ h₂ hmid
  exact ⟨String.ext hid, String.ext hhs⟩

/-- Every configured level's hours string is hyphen-free. -/
theorem mem_levels_no_hyphen (l : Level) (hl : l ∈ NOTIFICATION_LEVELS) :
    ( '-' ) ∉ l.hoursStr.data := by
  fin_cases hl <;> decide

/-- No configured level is in window when more than 300 minutes remain. -/
theorem inWindow_false_of_far (l : Level) (hl : l ∈ NOTIFICATION_LEVELS)
    (ml : Int) (hml : ml > 300) : inWindow l ml = false := by
  fin_cases hl <;> simp [inWindow] <;> omega

/-- No configured level is in window once the task is due or overdue. -/
theorem inWindow_false_of_nonpos (l : Level) (hl : l ∈ NOTIFICATION_LEVELS)
    (ml : Int) (hml : ml ≤ 0) : inWindow l ml = false := by
  fin_cases hl <;> simp [inWindow] <;> omega

/-- When the configured level is in its firing window and its key is not yet
recorded, the per-task body dispatches exactly that key and records it. -/
theorem checkTask_fires_free (tid ttitle : String) (due : Int) (level : Level)
    (hl : level ∈ NOTIFICATION_LEVELS) (now : Int) (L : List String)
    (hwin : inWindow level (minutesLeftAt due now) = true)
    (hnotin : notificationKey ⟨tid, ttitle, some due⟩ level ∉ L) :
    checkTask NOTIFICATION_LEVELS now L ⟨tid, ttitle, some due⟩ =
      ([notificationKey ⟨tid, ttitle, some due⟩ level],
       L ++ [notificationKey ⟨tid, ttitle, some due⟩ level]) := by
  have hml : minutesLeftAt due now = level.thresholdMinutes := by
    simp only [inWindow, Bool.and_eq_true, decide_eq_true_eq] at hwin
    omega
  fin_cases hl <;>
    simp [checkTask, NOTIFICATION_LEVELS, fireStep, inWindow, hml, hnotin,
      notificationKey] at hnotin ⊢ <;>
    simp [hnotin]

/-- When the configured level is in its firing window but its key is already
recorded, the per-task body dispatches nothing and leaves the ledger alone. -/
theorem checkTask_recorded_skip (tid ttitle : String) (due : Int)
    (level : Level) (hl : level ∈ NOTIFICATION_LEVELS) (now : Int)
    (L : List String)
    (hwin : inWindow level (minutesLeftAt due now) = true)
    (hin : notificationKey ⟨tid, ttitle, some due⟩ level ∈ L) :
    checkTask NOTIFICATION_LEVELS now L ⟨tid, ttitle, some due⟩ = ([], L) := by
  have hml : minutesLeftAt due now = level.thresholdMinutes := by
    simp only [inWindow, Bool.and_eq_true, decide_eq_true_eq] at hwin
    omega
  have hrec : NOTIFICATION_LEVELS.foldl
      (fireStep ⟨tid, ttitle, some due⟩ (minutesLeftAt due now)) ([], L) =
      ([], L) := by
    refine fireFold_recorded _ _ _ _ _ ?_
    intro l hll hwl
    fin_cases hl <;> fin_cases hll <;>
      simp_all [inWindow, NOTIFICATION_LEVELS]
  simp [checkTask, hrec]
  fin_cases hl <;> simp_all [NOTIFICATION_LEVELS]

/-- With more than 300 minutes remaining the per-task body dispatches nothing
and runs the cleanup loop over the ledger. -/
theorem checkTask_prune_branch (tid ttitle : String) (due now : Int)
    (L : List String) (hml : minutesLeftAt due now > 300) :
    checkTask NOTIFICATION_LEVELS now L ⟨tid, ttitle, some due⟩ =
      ([], pruneTask ⟨tid, ttitle, some due⟩ NOTIFICATION_LEVELS L) := by
  have hfold : NOTIFICATION_LEVELS.foldl
      (fireStep ⟨tid, ttitle, some due⟩ (minutesLeftAt due now)) ([], L) =
      ([], L) :=
    fireFold_recorded _ _ _ _ _ (fun l hl hw => by
      rw [inWindow_false_of_far l hl _ hml] at hw
      exact absurd hw (by simp))
  simp [checkTask, hfold]
  omega

/-- With no level in window and at most 300 minutes remaining, the per-task
body is a no-op. -/
theorem checkTask_idle (tid ttitle : String) (due now : Int)
    (L : List String)
    (hw : ∀ l ∈ NOTIFICATION_LEVELS,
      inWindow l (minutesLeftAt due now) = false)
    (hnp : ¬ minutesLeftAt due now > 300) :
    checkTask NOTIFICATION_LEVELS now L ⟨tid, ttitle, some due⟩ = ([], L) := by
  have hfold : NOTIFICATION_LEVELS.foldl
      (fireStep ⟨tid, ttitle, some due⟩ (minutesLeftAt due now)) ([], L) =
      ([], L) :=
    fireFold_recorded _ _ _ _ _ (fun l hl hwl => by
      rw [hw l hl] at hwl
      exact absurd hwl (by simp))
  simp [checkTask, hfold]
  omega

/-- The dispatch component of the per-task body is the dispatch component of
its firing loop (the cleanup loop never dispatches). -/
theorem checkTask_fst (tid ttitle : String) (due now : Int)
    (L : List String) :
    (checkTask NOTIFICATION_LEVELS now L ⟨tid, ttitle, some due⟩).1 =
      (NOTIFICATION_LEVELS.foldl
        (fireStep ⟨tid, ttitle, some due⟩ (minutesLeftAt due now))
        ([], L)).1 := by
  simp only [checkTask]
  split <;> rfl

/-- The JS computation `Math.floor((dueDate - now) / 60000)` really is the
floor of the exact rational quotient. -/
theorem minutesLeftAt_eq_floor (due now : Int) :
    minutesLeftAt due now = ⌊((due : ℚ) - (now : ℚ)) / (60000 : ℚ)⌋ := by
  have h := Rat.floor_intCast_div_natCast (due - now) 60000
  have h2 : (((due - now : ℤ) : ℚ)) = (due : ℚ) - now := by push_cast; ring
  rw [h2] at h
  rw [minutesLeftAt]
  norm_num at h ⊢
  exact h.symm

/-- Once the key of the in-window level is recorded, any further run of ticks
whose times all stay inside that level's window dispatches nothing and leaves
the ledger unchanged. -/
theorem runTicks_stable (tid ttitle : String) (due : Int) (level : Level)
    (hlevel : level ∈ NOTIFICATION_LEVELS) (ns : List Int)
    (hwin : ∀ n ∈ ns, inWindow level (minutesLeftAt due n) = true)
    (L : List String)
    (hin : notificationKey ⟨tid, ttitle, some due⟩ level ∈ L) :
    runTicks [⟨tid, ttitle, some due⟩] ns L = ([], L) := by
  induction ns with
  | nil => rfl
  | cons n ns ih =>
    rw [runTicks_cons, checkNotifications_one,
      checkTask_recorded_skip tid ttitle due level hlevel n L
        (hwin n (List.mem_cons_self n ns)) hin]
    simp [ih (fun m hm => hwin m (List.mem_cons_of_mem n hm))]

/-!  The claims. -/

/-- Claim C2: for every task with a due date and every configured threshold of
window size W minutes, the evaluator marks that threshold as in-window at time
`now` if and only if `minutesRemaining = floor((dueAt - now) / 60000)`
satisfies `W - 1 < minutesRemaining ≤ W`; outside that half-open one-minute
band the threshold does not fire. -/
theorem claim_C2_half_open_band (level : Level)
    (hl : level ∈ NOTIFICATION_LEVELS) (due now : Int) :
    inWindow level (minutesLeftAt due now) = true ↔
      (level.thresholdMinutes - 1 < ⌊((due : ℚ) - (now : ℚ)) / (60000 : ℚ)⌋ ∧
        ⌊((due : ℚ) - (now : ℚ)) / (60000 : ℚ)⌋ ≤ level.thresholdMinutes) := by
  rw [← minutesLeftAt_eq_floor]
  simp only [inWindow, Bool.and_eq_true, decide_eq_true_eq]
  omega

/-- Witness for C2 at the one-hour threshold, a task due in exactly one hour,
and `now = 0`. -/
theorem claim_C2_half_open_band_witness :
    (⟨"1", 1 * 60, "1 hour"⟩ : Level) ∈ NOTIFICATION_LEVELS ∧
    (inWindow ⟨"1", 1 * 60, "1 hour"⟩ (minutesLeftAt (60 * 60000) 0) = true ↔
      ((⟨"1", 1 * 60, "1 hour"⟩ : Level).thresholdMinutes - 1 <
          ⌊(((60 * 60000 : ℤ) : ℚ) - ((0 : ℤ) : ℚ)) / (60000 : ℚ)⌋ ∧
        ⌊(((60 * 60000 : ℤ) : ℚ) - ((0 : ℤ) : ℚ)) / (60000 : ℚ)⌋ ≤
          (⟨"1", 1 * 60, "1 hour"⟩ : Level).thresholdMinutes)) :=
  ⟨by decide,
    claim_C2_half_open_band ⟨"1", 1 * 60, "1 hour"⟩ (by decide) (60 * 60000) 0⟩

/-- Claim C5: within a single tick, the per-task algorithm is observationally
the specified prune-first protocol: on the same inputs the source's order
(firing loop first, cleanup after) produces exactly the dispatches and final
ledger of the algorithm that prunes and skips firing when
`minutesRemaining > farCutoffMinutes` and only otherwise evaluates the
thresholds against the live ledger.  The two orders coincide because no
configured threshold can fire while `minutesRemaining` exceeds the cutoff. -/
theorem claim_C5_prune_order_equiv (now : Int) (L : List String) (t : Task) :
    checkTask NOTIFICATION_LEVELS now L t =
      checkTaskSpec NOTIFICATION_LEVELS now L t := by
  rcases t with ⟨tid, ttitle, tdue⟩
  cases tdue with
  | none => rfl
  | some due =>
    by_cases hml : minutesLeftAt due now > 300
    · rw [checkTask_prune_branch tid ttitle due now L hml]
      simp only [checkTaskSpec]
      rw [if_pos (by omega)]
    · simp only [checkTask, checkTaskSpec]
      rw [if_neg (by omega), if_neg (by omega)]

/-- Claim C7: once a task is due or overdue (`minutesRemaining ≤ 0`), no
threshold is in window and the per-task body dispatches nothing, at the given
time and at every later tick, for every ledger, while the due date is
unchanged. -/
theorem claim_C7_overdue_no_fire (t : Task) (due : Int)
    (hdue : t.dueUtc = some due) (now : Int)
    (hml : minutesLeftAt due now ≤ 0) :
    ∀ now', now ≤ now' →
      (∀ l ∈ NOTIFICATION_LEVELS,
        inWindow l (minutesLeftAt due now') = false) ∧
      ∀ L, checkTask NOTIFICATION_LEVELS now' L t = ([], L) := by
  rcases t with ⟨tid, ttitle, tdue⟩
  simp only at hdue
  subst hdue
  intro now' hnow
  have hml' : minutesLeftAt due now' ≤ 0 := by
    simp only [minutesLeftAt] at hml ⊢
    omega
  refine ⟨fun l hl => inWindow_false_of_nonpos l hl _ hml', fun L => ?_⟩
  exact checkTask_idle tid ttitle due now' L
    (fun l hl => inWindow_false_of_nonpos l hl _ hml') (by omega)

/-- Witness for C7: a task due at time 0 observed one minute late, then
evaluated two minutes late. -/
theorem claim_C7_overdue_no_fire_witness :
    ((⟨"o", "r", some 0⟩ : Task).dueUtc = some 0 ∧
      minutesLeftAt 0 60000 ≤ 0 ∧ (60000 : Int) ≤ 120000) ∧
    (∀ l ∈ NOTIFICATION_LEVELS,
      inWindow l (minutesLeftAt 0 120000) = false) ∧
    ∀ L, checkTask NOTIFICATION_LEVELS 120000 L ⟨"o", "r", some 0⟩ =
      ([], L) :=
  ⟨⟨rfl, by decide, by decide⟩,
    claim_C7_overdue_no_fire ⟨"o", "r", some 0⟩ 0 rfl 60000 (by decide)
      120000 (by decide)⟩

/-- Claim C8: a task with no due date is silently skipped: over any run of
ticks it produces no dispatch and leaves the ledger untouched, so no ledger
entry is ever created for it. -/
theorem claim_C8_no_due_date (t : Task) (hdue : t.dueUtc = none)
    (nows : List Int) (L : List String) :
    runTicks [t] nows L = ([], L) := by
  rcases t with ⟨tid, ttitle, tdue⟩
  simp only at hdue
  subst hdue
  induction nows with
  | nil => rfl
  | cons n ns ih =>
    rw [runTicks_cons, checkNotifications_one]
    have hstep : checkTask NOTIFICATION_LEVELS n L ⟨tid, ttitle, none⟩ =
        ([], L) := rfl
    rw [hstep]
    simp [ih]

/-- Witness for C8: a task without a due date, two ticks, a nonempty ledger. -/
theorem claim_C8_no_due_date_witness :
    (⟨"n", "r", none⟩ : Task).dueUtc = none ∧
    runTicks [⟨"n", "r", none⟩] [0, 60000] ["task-a-5"] =
      ([], ["task-a-5"]) :=
  ⟨rfl, claim_C8_no_due_date ⟨"n", "r", none⟩ rfl [0, 60000] ["task-a-5"]⟩

/-- Claim C9: when notification permission is not granted the guarded effect
never installs or runs the tick, so the whole dispatch step is a no-op: no
notification is dispatched and the ledger is not mutated, for every set of
active tasks and every time. -/
theorem claim_C9_no_permission (perm : String) (hperm : perm ≠ "granted")
    (tasks : List Task) (now : Int) (L : List String) :
    enhancedTick perm tasks now L = ([], L) := by
  simp [enhancedTick, hperm]

/-- Witness for C9: denied permission, one due task, a nonempty ledger. -/
theorem claim_C9_no_permission_witness :
    ("denied" : String) ≠ "granted" ∧
    enhancedTick "denied" [⟨"a", "r", some 60000⟩] 0 ["task-a-5"] =
      ([], ["task-a-5"]) :=
  ⟨by decide,
    claim_C9_no_permission "denied" (by decide) [⟨"a", "r", some 60000⟩] 0
      ["task-a-5"]⟩

/-- Claim C4, counterexample: the source derives the dedup tag from the
level's hours value, not from its window size in minutes.  For the 30-minute
threshold (task id "a", due in exactly 30 minutes, empty ledger) the tick
dispatches the tag "task-a-0.5", which differs from the claimed
"task-a-30". -/
theorem claim_C4_counterexample :
    (checkTask NOTIFICATION_LEVELS 0 [] ⟨"a", "r", some (30 * 60000)⟩).1 =
      ["task-a-0.5"] ∧ ("task-a-0.5" : String) ≠ "task-a-30" := by
  constructor
  · decide
  · decide

/-- Claim C4 as amended: every tag attached to a dispatched notification is
"task-" ++ taskId ++ "-" ++ hours, where hours is the JS decimal string of
the firing threshold's window size in hours ("5", "2", "1", "0.5" or
"0.16666666666666666"), not its window size in minutes. -/
theorem claim_C4_amended_tag_form (t : Task) (now : Int) (L : List String)
    (x : String) (hx : x ∈ (checkTask NOTIFICATION_LEVELS now L t).1) :
    ∃ l ∈ NOTIFICATION_LEVELS, x = "task-" ++ t.id ++ "-" ++ l.hoursStr := by
  rcases t with ⟨tid, ttitle, tdue⟩
  cases tdue with
  | none => exact absurd hx (by simp [checkTask])
  | some due =>
    rw [checkTask_fst] at hx
    rcases fireFold_dispatch_mem ⟨tid, ttitle, some due⟩
        (minutesLeftAt due now) NOTIFICATION_LEVELS [] L x hx with
      h | ⟨l, hl, hkey⟩
    · exact absurd h (List.not_mem_nil x)
    · exact ⟨l, hl, hkey⟩

/-- Witness for the amended C4 at the 30-minute threshold. -/
theorem claim_C4_amended_tag_form_witness :
    ("task-a-0.5" : String) ∈
      (checkTask NOTIFICATION_LEVELS 0 [] ⟨"a", "r", some (30 * 60000)⟩).1 ∧
    ∃ l ∈ NOTIFICATION_LEVELS,
      ("task-a-0.5" : String) =
        "task-" ++ (⟨"a", "r", some (30 * 60000)⟩ : Task).id ++ "-" ++
          l.hoursStr :=
  ⟨by decide,
    claim_C4_amended_tag_form ⟨"a", "r", some (30 * 60000)⟩ 0 []
      "task-a-0.5" (by decide)⟩

/-- Claim C6: the pruning cutoff is the hardcoded 300 minutes (the literal
`5 * 60` of App.jsx line 333), independent of the threshold list: for any
threshold configuration, a task whose minutes remaining exceed 300 has all of
its ledger entries removed by the tick.  Consequently (concrete scenario) a
task with already-fired thresholds whose due date is pushed 10 hours out has
its whole ledger record pruned on the next tick, and when the due date later
re-enters the 120-minute window the 2-hour threshold fires again. -/
theorem claim_C6_hardcoded_cutoff :
    (∀ (levels : List Level) (tid ttitle : String) (due now : Int)
        (L : List String) (l : Level), l ∈ levels →
        minutesLeftAt due now > 300 →
        notificationKey ⟨tid, ttitle, some due⟩ l ∉
          (checkTask levels now L ⟨tid, ttitle, some due⟩).2) ∧
    (checkTask NOTIFICATION_LEVELS 0
        ["task-x-5", "task-x-2", "task-x-1", "task-x-0.5"]
        ⟨"x", "r", some (600 * 60000)⟩ = ([], []) ∧
      checkTask NOTIFICATION_LEVELS (480 * 60000) []
        ⟨"x", "r", some (600 * 60000)⟩ =
        (["task-x-2"], ["task-x-2"])) := by
  refine ⟨?_, by decide, by decide⟩
  intro levels tid ttitle due now L l hl hml hmem
  have hck : checkTask levels now L ⟨tid, ttitle, some due⟩ =
      ((levels.foldl
          (fireStep ⟨tid, ttitle, some due⟩ (minutesLeftAt due now))
          ([], L)).1,
        pruneTask ⟨tid, ttitle, some due⟩ levels
          (levels.foldl
            (fireStep ⟨tid, ttitle, some due⟩ (minutesLeftAt due now))
            ([], L)).2) := by
    simp only [checkTask]
    rw [if_pos (by omega)]
  rw [hck] at hmem
  rw [pruneTask_mem] at hmem
  exact hmem.2 l hl rfl

/-- Witness for the universally quantified part of C6, at the default
threshold list, a task pushed 10 hours out, and a ledger holding its 5-hour
key. -/
theorem claim_C6_hardcoded_cutoff_witness :
    ((⟨"5", 5 * 60, "5 hours"⟩ : Level) ∈ NOTIFICATION_LEVELS ∧
      minutesLeftAt (600 * 60000) 0 > 300) ∧
    notificationKey ⟨"y", "r", some (600 * 60000)⟩ ⟨"5", 5 * 60, "5 hours"⟩ ∉
      (checkTask NOTIFICATION_LEVELS 0 ["task-y-5"]
        ⟨"y", "r", some (600 * 60000)⟩).2 :=
  ⟨⟨by decide, by decide⟩,
    claim_C6_hardcoded_cutoff.1 NOTIFICATION_LEVELS "y" "r" (600 * 60000) 0
      ["task-y-5"] ⟨"5", 5 * 60, "5 hours"⟩ (by decide) (by decide)⟩

/-- Claim C10: pruning is per-task.  When a tick prunes a task whose minutes
remaining exceed the cutoff, membership of every other task's (taskId',
threshold) key in the ledger is unchanged, for any configured threshold and
any task with a different id (ids may contain hyphens; the configured hours
strings do not, so keys of distinct tasks never collide). -/
theorem claim_C10_prune_frame (t : Task) (due : Int)
    (hdue : t.dueUtc = some due) (now : Int) (L : List String)
    (hml : minutesLeftAt due now > 300) (t' : Task) (l' : Level)
    (hl' : l' ∈ NOTIFICATION_LEVELS) (hid : t'.id ≠ t.id) :
    (notificationKey t' l' ∈ (checkTask NOTIFICATION_LEVELS now L t).2 ↔
      notificationKey t' l' ∈ L) := by
  rcases t with ⟨tid, ttitle, tdue⟩
  simp only at hdue
  subst hdue
  rw [checkTask_prune_branch tid ttitle due now L hml, pruneTask_mem]
  constructor
  · exact fun h => h.1
  · intro h
    refine ⟨h, fun l hl heq => ?_⟩
    exact hid ((notificationKey_inj t' ⟨tid, ttitle, some due⟩ l' l
      (mem_levels_no_hyphen l' hl') (mem_levels_no_hyphen l hl) heq).1)

/-- Witness for C10: pruning task "x" (pushed 10 hours out) leaves the
recorded 5-hour key of task "y" in the ledger. -/
theorem claim_C10_prune_frame_witness :
    ((⟨"x", "r", some (600 * 60000)⟩ : Task).dueUtc = some (600 * 60000) ∧
      minutesLeftAt (600 * 60000) 0 > 300 ∧
      (⟨"5", 5 * 60, "5 hours"⟩ : Level) ∈ NOTIFICATION_LEVELS ∧
      (⟨"y", "r", none⟩ : Task).id ≠
        (⟨"x", "r", some (600 * 60000)⟩ : Task).id) ∧
    (notificationKey ⟨"y", "r", none⟩ ⟨"5", 5 * 60, "5 hours"⟩ ∈
        (checkTask NOTIFICATION_LEVELS 0 ["task-y-5"]
          ⟨"x", "r", some (600 * 60000)⟩).2 ↔
      notificationKey ⟨"y", "r", none⟩ ⟨"5", 5 * 60, "5 hours"⟩ ∈
        ["task-y-5"]) :=
  ⟨⟨rfl, by decide, by decide, by decide⟩,
    claim_C10_prune_frame ⟨"x", "r", some (600 * 60000)⟩ (600 * 60000) rfl 0
      ["task-y-5"] (by decide) ⟨"y", "r", none⟩ ⟨"5", 5 * 60, "5 hours"⟩
      (by decide) (by decide)⟩

/-- Claim C1: for a task with a fixed due date and a configured threshold,
running the tick any number of times at increasing `now` values that all stay
inside that threshold's one-minute firing window dispatches the pair's key
exactly once overall (the dispatch list of the whole run is exactly the one
key), and after any nonempty prefix of the run — in particular after the
first tick — the pair is recorded in the ledger, which is why no later tick
re-fires. -/
theorem claim_C1_single_dispatch_per_window (t : Task) (due : Int)
    (hdue : t.dueUtc = some due) (level : Level)
    (hlevel : level ∈ NOTIFICATION_LEVELS) (nows : List Int)
    (hne : nows ≠ []) (hchain : nows.Chain' (· < ·))
    (hwin : ∀ n ∈ nows, inWindow level (minutesLeftAt due n) = true)
    (L : List String) (hfree : notificationKey t level ∉ L) :
    (runTicks [t] nows L).1 = [notificationKey t level] ∧
    ∀ ns₁ ns₂, nows = ns₁ ++ ns₂ → ns₁ ≠ [] →
      notificationKey t level ∈ (runTicks [t] ns₁ L).2 := by
  rcases t with ⟨tid, ttitle, tdue⟩
  simp only at hdue
  subst hdue
  obtain ⟨n₀, rest, rfl⟩ := List.exists_cons_of_ne_nil hne
  have hfire := checkTask_fires_free tid ttitle due level hlevel n₀ L
    (hwin n₀ (List.mem_cons_self _ _)) hfree
  have hkey : notificationKey ⟨tid, ttitle, some due⟩ level ∈
      L ++ [notificationKey ⟨tid, ttitle, some due⟩ level] :=
    List.mem_append_right L (List.mem_singleton.mpr rfl)
  constructor
  · rw [runTicks_cons, checkNotifications_one, hfire,
      runTicks_stable tid ttitle due level hlevel rest
        (fun m hm => hwin m (List.mem_cons_of_mem _ hm)) _ hkey]
    simp
  · rintro ns₁ ns₂ heq hne₁
    obtain ⟨m₀, ms, rfl⟩ := List.exists_cons_of_ne_nil hne₁
    rw [List.cons_append] at heq
    injection heq with h1 h2
    subst h1
    rw [runTicks_cons, checkNotifications_one, hfire,
      runTicks_stable tid ttitle due level hlevel ms
        (fun m hm => hwin m
          (List.mem_cons_of_mem _ (h2 ▸ List.mem_append_left ns₂ hm))) _
        hkey]
    simp

/-- Witness for C1: a task due at minute 300, the 5-hour threshold, three
increasing tick times inside the threshold's window, empty starting ledger. -/
theorem claim_C1_single_dispatch_per_window_witness :
    ((⟨"w", "r", some (300 * 60000)⟩ : Task).dueUtc = some (300 * 60000) ∧
      (⟨"5", 5 * 60, "5 hours"⟩ : Level) ∈ NOTIFICATION_LEVELS ∧
      ([-50000, -30000, 0] : List Int) ≠ [] ∧
      List.Chain' (· < ·) ([-50000, -30000, 0] : List Int) ∧
      (∀ n ∈ ([-50000, -30000, 0] : List Int),
        inWindow ⟨"5", 5 * 60, "5 hours"⟩
          (minutesLeftAt (300 * 60000) n) = true) ∧
      notificationKey ⟨"w", "r", some (300 * 60000)⟩
        ⟨"5", 5 * 60, "5 hours"⟩ ∉ ([] : List String)) ∧
    ((runTicks [⟨"w", "r", some (300 * 60000)⟩] [-50000, -30000, 0] []).1 =
      [notificationKey ⟨"w", "r", some (300 * 60000)⟩
        ⟨"5", 5 * 60, "5 hours"⟩] ∧
    ∀ ns₁ ns₂, ([-50000, -30000, 0] : List Int) = ns₁ ++ ns₂ → ns₁ ≠ [] →
      notificationKey ⟨"w", "r", some (300 * 60000)⟩
          ⟨"5", 5 * 60, "5 hours"⟩ ∈
        (runTicks [⟨"w", "r", some (300 * 60000)⟩] ns₁ []).2) :=
  ⟨⟨rfl, by decide, by decide, by simp [List.chain'_cons], by decide,
      by decide⟩,
    claim_C1_single_dispatch_per_window ⟨"w", "r", some (300 * 60000)⟩
      (300 * 60000) rfl ⟨"5", 5 * 60, "5 hours"⟩ (by decide)
      [-50000, -30000, 0] (by decide) (by simp [List.chain'_cons])
      (by decide) [] (by decide)⟩

/-- Claim C3: a task due 6 hours out, ticked forward minute by minute until
it is overdue, dispatches exactly one notification per configured threshold —
5 dispatches, in descending window order (5 h, 2 h, 1 h, 30 min, 10 min). -/
theorem claim_C3_six_hour_run :
    (runTicks [⟨"t1", "r", some (360 * 60000)⟩]
      ((List.range 362).map (fun i => (60000 : Int) * i)) []).1 =
      [ "task-t1-5", "task-t1-2", "task-t1-1", "task-t1-0.5",
        "task-t1-0.16666666666666666" ] := by
  set_option maxRecDepth 10000 in decide

end TodoApp
